import Mathlib

/-!
Shallow embedding of the ICMP echo codec in src/icmp.c and proofs of its
specification properties.

Byte buffers are modelled as `List Nat`; a buffer produced by the C code
always holds values below 256 (the arrays have type uint8_t*).  Every read
of a byte from a buffer is therefore taken modulo 256 in the embedding, and
every value stored into a buffer is stored modulo 256, mirroring the C
types.  Machine integers are modelled as `Nat` with explicit reduction
modulo 2 to the word size where the C code can overflow (the uint32_t
accumulator of the checksum).
-/

/-- System header constant ICMP_ECHO (netinet/ip_icmp.h): ICMPv4 echo request. -/
def ICMP_ECHO : Nat := 8

/-- System header constant ICMP_ECHOREPLY (netinet/ip_icmp.h): ICMPv4 echo reply. -/
def ICMP_ECHOREPLY : Nat := 0

/-- System header constant ICMP6_ECHO_REQUEST (netinet/icmp6.h): ICMPv6 echo request. -/
def ICMP6_ECHO_REQUEST : Nat := 128

/-- System header constant ICMP6_ECHO_REPLY (netinet/icmp6.h): ICMPv6 echo reply. -/
def ICMP6_ECHO_REPLY : Nat := 129

/-- System constant AF_INET (Linux value 2).  The code only compares the
peer family against this value, so only the equality matters. -/
def AF_INET : Nat := 2

/-- System constant AF_INET6 (Linux value 10). -/
def AF_INET6 : Nat := 10

/-- Modelled from the spec: ICMP_HDRLEN is defined in the repository header
icmp.h, which is not under src/; the spec fixes the wire header at 8 bytes
(1 type, 1 code, 2 checksum, 2 id, 2 seqno). -/
def ICMP_HDRLEN : Nat := 8

/-- The two-value logical packet type enumeration (ICMP_REQUEST and
ICMP_REPLY in the repository header icmp.h, per the spec a 2-value
enumeration distinct from the wire codes). -/
inductive icmp_type where
  | ICMP_REQUEST : icmp_type
  | ICMP_REPLY : icmp_type
deriving DecidableEq, Repr

/-- struct icmp_rule from src/icmp.c: per-family wire constants.
use_checksum and strip_iphdr are C ints used only as booleans. -/
structure icmp_rule where
  request_type : Nat
  reply_type : Nat
  use_checksum : Bool
  strip_iphdr : Bool
deriving DecidableEq, Repr

/-- The icmpv4 rule record from src/icmp.c. -/
def icmpv4 : icmp_rule :=
  { request_type := ICMP_ECHO
    reply_type := ICMP_ECHOREPLY
    use_checksum := true
    strip_iphdr := true }

/-- The icmpv6 rule record from src/icmp.c. -/
def icmpv6 : icmp_rule :=
  { request_type := ICMP6_ECHO_REQUEST
    reply_type := ICMP6_ECHO_REPLY
    use_checksum := false
    strip_iphdr := false }

/-- GET_RULE from src/icmp.c: (ICMP_ADDRFAMILY(pkt) == AF_INET) selects
icmpv4, anything else selects icmpv6.  ICMP_ADDRFAMILY reads the address
family stored in the packet peer; the embedding keeps that family as a
plain Nat field. -/
def GET_RULE (family : Nat) : icmp_rule :=
  if family = AF_INET then icmpv4 else icmpv6

/-- struct icmp_packet (repository header icmp.h, per the spec data model):
peer address family, logical type, 16-bit id and seqno, owned payload
buffer and its length.  The payload pointer is modelled as an Option
(none is the NULL pointer); peer and peer_len are reduced to the family,
the only part the codec reads. -/
structure icmp_packet where
  family : Nat
  type : icmp_type
  id : Nat
  seqno : Nat
  payload : Option (List Nat)
  payload_len : Nat
deriving DecidableEq, Repr

/-- One pass of the checksum loop of src/icmp.c: the 16-bit big-endian
words of the buffer, summed without any reduction.  An odd final byte is
the high byte of a word with zero low byte (the i + 1 < len guard).
Data bytes are read modulo 256 (uint8_t loads). -/
def wordSum : List Nat → Nat
  | [] => 0
  | [b] => b % 256 * 256
  | b1 :: b2 :: rest => b1 % 256 * 256 + b2 % 256 + wordSum rest

/-- The final folding of the checksum accumulator in src/icmp.c:
csum = (csum >> 16) + (csum & 0xffff); csum += (csum >> 16); written with
division and remainder by 65536. -/
def fold16 (x : Nat) : Nat :=
  (x / 65536 + x % 65536 + (x / 65536 + x % 65536) / 65536) % 65536

/-- checksum from src/icmp.c.  The uint32_t accumulator makes the word sum
reduce modulo 2^32; the folded value is complemented and truncated to
uint16_t, and for csum < 2^32 the value (uint16_t)(~csum) equals
65535 - csum % 65536. -/
def checksum (data : List Nat) : Nat :=
  65535 - fold16 (wordSum data % 4294967296)

/-- read16 from src/icmp.c: big-endian 16-bit read of the first two bytes
(uint8_t loads, hence modulo 256). -/
def read16 (data : List Nat) : Nat :=
  data.getD 0 0 % 256 * 256 + data.getD 1 0 % 256

/-- write16 from src/icmp.c: big-endian 16-bit store.  The uint16_t
parameter truncates the argument modulo 65536; the two stored bytes are
s >> 8 and s & 0xFF. -/
def write16 (s : Nat) : List Nat :=
  [s % 65536 / 256, s % 256]

/-- The payload region of the encode buffer in src/icmp.c: calloc
zero-fills the pktlen buffer, then memcpy copies payload_len bytes from
the payload pointer when payload_len is nonzero.  Bytes are stored modulo
256 (uint8_t array); for a packet whose payload_len matches its payload
buffer the take and the padding are inert. -/
def encode_payload (pkt : icmp_packet) : List Nat :=
  if pkt.payload_len ≠ 0 then
    (((pkt.payload.getD []).map (fun b => b % 256)) ++
      List.replicate pkt.payload_len 0).take pkt.payload_len
  else []

/-- Bytes 4 .. pktlen of the encode buffer of src/icmp.c: id big-endian at
offset 4, seqno big-endian at offset 6, payload from offset 8. -/
def encode_tail (pkt : icmp_packet) : List Nat :=
  write16 pkt.id ++ write16 pkt.seqno ++ encode_payload pkt

/-- icmp_encode from src/icmp.c (the buffer construction; the calloc
outcome is modelled separately in icmp_encode_alloc).  Byte 0 is the wire
type code from the rule (stored into uint8_t), byte 1 stays zero, bytes
2..3 stay zero unless the rule uses a checksum, in which case the checksum
of the whole zero-checksum buffer is spliced in big-endian at offset 2. -/
def icmp_encode (pkt : icmp_packet) : List Nat :=
  let rule := GET_RULE pkt.family
  let t : Nat :=
    match pkt.type with
    | icmp_type.ICMP_REQUEST => rule.request_type % 256
    | icmp_type.ICMP_REPLY => rule.reply_type % 256
  if rule.use_checksum then
    t :: 0 :: write16 (checksum (t :: 0 :: 0 :: 0 :: encode_tail pkt)) ++ encode_tail pkt
  else
    t :: 0 :: 0 :: 0 :: encode_tail pkt

/-- icmp_encode including the calloc outcome: the C function returns NULL
exactly when the allocation fails, which the embedding models by the
Boolean oracle allocOk; on success it returns the buffer and writes
pktlen = ICMP_HDRLEN + payload_len through the len out-parameter. -/
def icmp_encode_alloc (allocOk : Bool) (pkt : icmp_packet) : Option (List Nat × Nat) :=
  if allocOk then some (icmp_encode pkt, ICMP_HDRLEN + pkt.payload_len) else none

/-- icmp_send from src/icmp.c: encode, return 0 when encode produced no
buffer, otherwise hand the buffer and its length to the external sendto
primitive and return whatever sendto returns (the buffer is freed either
way; sendto is an external collaborator modelled as a function
argument). -/
def icmp_send (sendto : List Nat → Nat → Int) (allocOk : Bool)
    (pkt : icmp_packet) : Int :=
  match icmp_encode_alloc allocOk pkt with
  | none => 0
  | some (data, len) => sendto data len

/-- The field updates of a successful icmp_parse in src/icmp.c: classify
the type, read id and seqno big-endian at offsets 4 and 6, set payload_len
to the remaining length minus the header, and either malloc-copy the
payload bytes (nonzero length) or leave the payload pointer NULL. -/
def mkParsed (pkt : icmp_packet) (t : icmp_type) (data : List Nat) : icmp_packet :=
  { pkt with
    type := t
    id := read16 (data.drop 4)
    seqno := read16 (data.drop 6)
    payload_len := data.length - ICMP_HDRLEN
    payload :=
      if data.length - ICMP_HDRLEN ≠ 0 then some (data.drop ICMP_HDRLEN) else none }

/-- The part of icmp_parse from src/icmp.c after the IP-header strip:
reject a segment shorter than the fixed header with -1, a nonzero checksum
(when the rule uses one) with -2, an unrecognized type byte with -5;
otherwise populate the packet and return 0.  The C writes its results
through the packet pointer; the embedding returns the code together with
the resulting packet state. -/
def icmp_parse_seg (rule : icmp_rule) (pkt : icmp_packet)
    (data : List Nat) : Int × icmp_packet :=
  if data.length < ICMP_HDRLEN then (-1, pkt)
  else if rule.use_checksum ∧ checksum data ≠ 0 then (-2, pkt)
  else if rule.request_type = data.getD 0 0 % 256 then
    (0, mkParsed pkt icmp_type.ICMP_REQUEST data)
  else if rule.reply_type = data.getD 0 0 % 256 then
    (0, mkParsed pkt icmp_type.ICMP_REPLY data)
  else (-5, pkt)

/-- icmp_parse from src/icmp.c.  When the rule strips an IP header: an
empty buffer is rejected with -3, the header length is the low 4 bits of
the first byte times 4 ((data[0] & 0x0f) << 2), a buffer shorter than that
header is rejected with -4, and the data pointer and length advance past
the header; the rest of the function is icmp_parse_seg. -/
def icmp_parse (pkt : icmp_packet) (data : List Nat) : Int × icmp_packet :=
  let rule := GET_RULE pkt.family
  if rule.strip_iphdr then
    if data.length = 0 then (-3, pkt)
    else
      let hdrlen := data.getD 0 0 % 16 * 4
      if data.length < hdrlen then (-4, pkt)
      else icmp_parse_seg rule pkt (data.drop hdrlen)
  else icmp_parse_seg rule pkt data

/-- A concrete IPv4 echo request used as a test vector: id 0x1234, seqno 1,
payload AA BB (the example of the spec). -/
def examplePacketV4 : icmp_packet :=
  { family := AF_INET
    type := icmp_type.ICMP_REQUEST
    id := 0x1234
    seqno := 1
    payload := some [0xAA, 0xBB]
    payload_len := 2 }

/-- A concrete IPv6 echo reply used as a test vector. -/
def examplePacketV6 : icmp_packet :=
  { family := AF_INET6
    type := icmp_type.ICMP_REPLY
    id := 0xBEEF
    seqno := 0xCAFE
    payload := none
    payload_len := 0 }

/-- A minimal 20-byte IPv4 header for exercising the strip step: version
nibble 4, header-length nibble 5, remaining bytes zero. -/
def exampleIpHeader : List Nat :=
  0x45 :: List.replicate 19 0

/-- The two folding steps of the checksum map any 32-bit accumulator value
to a value at most 65535 that is congruent to it modulo 65535 and is zero
exactly for the zero accumulator. -/
theorem fold16_spec (x : Nat) (hx : x < 4294967296) :
    fold16 x ≤ 65535 ∧ fold16 x % 65535 = x % 65535 ∧ (fold16 x = 0 ↔ x = 0) := by
  have key : x % 65535 = (x / 65536 + x % 65536) % 65535 := by
    conv_lhs => rw [show x = 65535 * (x / 65536) + (x / 65536 + x % 65536) by omega]
    rw [Nat.mul_add_mod]
  unfold fold16
  rcases Nat.lt_or_ge (x / 65536 + x % 65536) 65536 with h | h
  · have h0 : (x / 65536 + x % 65536) / 65536 = 0 := Nat.div_eq_of_lt h
    rw [h0]
    omega
  · have h1 : (x / 65536 + x % 65536) / 65536 = 1 := by omega
    rw [h1]
    have h2 : (x / 65536 + x % 65536 + 1) % 65536 = x / 65536 + x % 65536 - 65535 := by
      omega
    rw [h2]
    have h3 : (x / 65536 + x % 65536 - 65535) % 65535 = (x / 65536 + x % 65536) % 65535 := by
      omega
    omega

/-- Adding the complemented folded checksum of a word sum back onto that
word sum makes the checksum computation come out zero; this is the RFC 1071
self-verification identity, proved for the exact uint32_t arithmetic of the
code, for every word sum. -/
theorem chk_self (W : Nat) :
    65535 - fold16 ((W + (65535 - fold16 (W % 4294967296))) % 4294967296) = 0 := by
  have hx : W % 4294967296 < 4294967296 := Nat.mod_lt _ (by norm_num)
  obtain ⟨h1, h2, h3⟩ := fold16_spec (W % 4294967296) hx
  have hxc : W % 4294967296 + (65535 - fold16 (W % 4294967296)) < 4294967296 := by omega
  have hrw : (W + (65535 - fold16 (W % 4294967296))) % 4294967296
      = W % 4294967296 + (65535 - fold16 (W % 4294967296)) := by omega
  rw [hrw]
  obtain ⟨g1, g2, g3⟩ := fold16_spec _ hxc
  omega

/-- The checksum value always fits in 16 bits. -/
theorem checksum_le (data : List Nat) : checksum data ≤ 65535 := by
  unfold checksum
  omega

/-- Splicing the big-endian checksum of a buffer whose third and fourth
bytes are zero into those two bytes adds exactly the checksum value to the
word sum of the buffer. -/
theorem wordSum_splice (t b : Nat) (rest : List Nat) :
    wordSum (t :: b :: (write16 (checksum (t :: b :: 0 :: 0 :: rest)) ++ rest))
      = wordSum (t :: b :: 0 :: 0 :: rest) + checksum (t :: b :: 0 :: 0 :: rest) := by
  have h := checksum_le (t :: b :: 0 :: 0 :: rest)
  simp only [write16, List.append_eq, List.cons_append, List.nil_append, wordSum]
  omega

/-- Filling bytes 2 and 3 of a zero-checksum buffer with the buffer
checksum yields a buffer whose checksum is zero. -/
theorem checksum_splice_self (t b : Nat) (rest : List Nat) :
    checksum (t :: b :: (write16 (checksum (t :: b :: 0 :: 0 :: rest)) ++ rest)) = 0 := by
  have hw := wordSum_splice t b rest
  unfold checksum at hw ⊢
  rw [hw]
  exact chk_self (wordSum (t :: b :: 0 :: 0 :: rest))

/-- Helper form of the claim C2 property, shared by the round-trip proof:
an encoded IPv4 packet checksums to zero. -/
theorem encode_checksum_zero (pkt : icmp_packet) (hfam : pkt.family = AF_INET) :
    checksum (icmp_encode pkt) = 0 := by
  unfold icmp_encode
  rw [hfam]
  simp only [GET_RULE, if_pos rfl, icmpv4]
  exact checksum_splice_self _ 0 (encode_tail pkt)


/-- Claim C2: for every IPv4 logical packet, whatever its payload length
(odd lengths included, the final byte acting as the high byte of a virtual
word with zero low byte), the RFC 1071 checksum computed over the complete
encoded buffer, including the checksum field filled in at offset 2, equals
zero. -/
theorem icmp_encode_checksum_zero (pkt : icmp_packet)
    (hfam : pkt.family = AF_INET) :
    checksum (icmp_encode pkt) = 0 :=
  encode_checksum_zero pkt hfam

/-- Witness for C2 at the concrete example packet. -/
theorem icmp_encode_checksum_zero_witness :
    examplePacketV4.family = AF_INET ∧ checksum (icmp_encode examplePacketV4) = 0 :=
  ⟨by decide, icmp_encode_checksum_zero examplePacketV4 (by decide)⟩

/-- Evaluation of the post-strip part of the parse on any buffer with at
least the eight header bytes exposed, for an arbitrary rule. -/
theorem icmp_parse_seg_explicit (rule : icmp_rule) (pkt : icmp_packet)
    (b0 b1 b2 b3 b4 b5 b6 b7 : Nat) (P : List Nat) :
    icmp_parse_seg rule pkt (b0 :: b1 :: b2 :: b3 :: b4 :: b5 :: b6 :: b7 :: P) =
      if rule.use_checksum ∧ checksum (b0 :: b1 :: b2 :: b3 :: b4 :: b5 :: b6 :: b7 :: P) ≠ 0 then
        (-2, pkt)
      else if rule.request_type = b0 % 256 then
        (0, { pkt with
              type := icmp_type.ICMP_REQUEST
              id := b4 % 256 * 256 + b5 % 256
              seqno := b6 % 256 * 256 + b7 % 256
              payload_len := P.length
              payload := if P.length ≠ 0 then some P else none })
      else if rule.reply_type = b0 % 256 then
        (0, { pkt with
              type := icmp_type.ICMP_REPLY
              id := b4 % 256 * 256 + b5 % 256
              seqno := b6 % 256 * 256 + b7 % 256
              payload_len := P.length
              payload := if P.length ≠ 0 then some P else none })
      else (-5, pkt) := by
  have hd4 : List.drop 4 (b0 :: b1 :: b2 :: b3 :: b4 :: b5 :: b6 :: b7 :: P)
      = b4 :: b5 :: b6 :: b7 :: P := rfl
  have hd6 : List.drop 6 (b0 :: b1 :: b2 :: b3 :: b4 :: b5 :: b6 :: b7 :: P)
      = b6 :: b7 :: P := rfl
  have hd8 : List.drop 8 (b0 :: b1 :: b2 :: b3 :: b4 :: b5 :: b6 :: b7 :: P) = P := rfl
  have hlen : (b0 :: b1 :: b2 :: b3 :: b4 :: b5 :: b6 :: b7 :: P).length = P.length + 8 := by
    simp
  unfold icmp_parse_seg mkParsed read16 ICMP_HDRLEN
  rw [hlen, hd4, hd6, hd8]
  rw [if_neg (by omega : ¬ P.length + 8 < 8)]
  have hsub : P.length + 8 - 8 = P.length := by omega
  rw [hsub]
  rfl

/-- Reducing every element of a list of bytes modulo 256 is the identity. -/
theorem map_mod256 (l : List Nat) (h : ∀ b ∈ l, b < 256) :
    l.map (fun b => b % 256) = l := by
  induction l with
  | nil => rfl
  | cons a t ih =>
    simp only [List.map_cons, List.cons.injEq]
    exact ⟨Nat.mod_eq_of_lt (h a (List.mem_cons_self a t)),
      ih fun b hb => h b (List.mem_cons_of_mem a hb)⟩

/-- For a packet whose payload length matches its payload buffer of bytes,
the encoded payload region is exactly the payload buffer. -/
theorem encode_payload_eq (pkt : icmp_packet)
    (hlen : pkt.payload_len = (pkt.payload.getD []).length)
    (hbytes : ∀ b ∈ pkt.payload.getD [], b < 256) :
    encode_payload pkt = pkt.payload.getD [] := by
  unfold encode_payload
  by_cases h0 : pkt.payload_len = 0
  · rw [if_neg (by omega : ¬ pkt.payload_len ≠ 0)]
    exact (List.eq_nil_of_length_eq_zero (by omega)).symm
  · rw [if_pos h0, map_mod256 _ hbytes, hlen]
    exact List.take_left ..

/-- For a packet whose payload length matches its payload buffer of bytes,
the encoded tail is id, seqno and the payload bytes. -/
theorem encode_tail_eq (pkt : icmp_packet)
    (hlen : pkt.payload_len = (pkt.payload.getD []).length)
    (hbytes : ∀ b ∈ pkt.payload.getD [], b < 256) :
    encode_tail pkt = write16 pkt.id ++ write16 pkt.seqno ++ pkt.payload.getD [] := by
  unfold encode_tail
  rw [encode_payload_eq pkt hlen hbytes]

/-- Helper form of the strip property shared by several proofs: with an
IPv4 peer, a 20-byte header whose length nibble is 5 is stripped whole and
the rest of the parse runs on the bare segment. -/
theorem icmp_parse_v4_strip (pkt : icmp_packet) (hdr seg : List Nat)
    (hfam : pkt.family = AF_INET)
    (hhdr : hdr.length = 20) (hnib : hdr.getD 0 0 % 16 = 5) :
    icmp_parse pkt (hdr ++ seg) = icmp_parse_seg icmpv4 pkt seg := by
  unfold icmp_parse
  rw [hfam]
  simp only [GET_RULE, eq_self_iff_true, if_true]
  have hne : ¬ ((hdr ++ seg).length = 0) := by
    simp [List.length_append, hhdr]
  have h0 : (hdr ++ seg).getD 0 0 = hdr.getD 0 0 := by
    cases hdr with
    | nil => simp at hhdr
    | cons a l => rfl
  rw [show icmpv4.strip_iphdr = true from rfl, if_pos rfl, if_neg hne, h0, hnib]
  have hlt : ¬ ((hdr ++ seg).length < 5 * 4) := by
    rw [List.length_append, hhdr]
    omega
  rw [if_neg hlt]
  have hdrop : (hdr ++ seg).drop (5 * 4) = seg := by
    rw [show 5 * 4 = hdr.length by omega]
    exact List.drop_left ..
  rw [hdrop]

/-- With any peer family other than AF_INET the parse neither strips nor
checksums: it is the post-strip parse under the icmpv6 rule. -/
theorem icmp_parse_nov4 (pkt : icmp_packet) (data : List Nat)
    (hfam : pkt.family ≠ AF_INET) :
    icmp_parse pkt data = icmp_parse_seg icmpv6 pkt data := by
  unfold icmp_parse
  simp [GET_RULE, hfam, icmpv6]

/-- Claim C1: for every logical packet with type in the two-value
enumeration, 16-bit id and seqno, and any byte payload (possibly empty),
encoding with the peer family rule and then parsing the encoded bytes
(with a valid 20-byte IP header prepended for IPv4 to exercise the strip
step, and the bare buffer for any other family) returns success and yields
the original id, seqno, payload bytes, and type.  The payload is compared
as its byte sequence: a successful parse stores an empty payload as an
absent pointer. -/
theorem icmp_encode_parse_roundtrip (pkt : icmp_packet) (hdr buf : List Nat)
    (hid : pkt.id < 65536) (hseq : pkt.seqno < 65536)
    (hlen : pkt.payload_len = (pkt.payload.getD []).length)
    (hbytes : ∀ b ∈ pkt.payload.getD [], b < 256)
    (hhdr : hdr.length = 20) (hnib : hdr.getD 0 0 % 16 = 5)
    (hbuf : buf = if pkt.family = AF_INET then hdr ++ icmp_encode pkt
                  else icmp_encode pkt) :
    (icmp_parse pkt buf).1 = 0 ∧
    (icmp_parse pkt buf).2.type = pkt.type ∧
    (icmp_parse pkt buf).2.id = pkt.id ∧
    (icmp_parse pkt buf).2.seqno = pkt.seqno ∧
    (icmp_parse pkt buf).2.payload_len = pkt.payload_len ∧
    (icmp_parse pkt buf).2.payload.getD [] = pkt.payload.getD [] := by
  subst hbuf
  by_cases hfam : pkt.family = AF_INET
  · rw [if_pos hfam, icmp_parse_v4_strip pkt hdr _ hfam hhdr hnib]
    have hck := encode_checksum_zero pkt hfam
    cases hty : pkt.type with
    | ICMP_REQUEST =>
      have henc : icmp_encode pkt =
          8 :: 0 ::
          checksum (8 :: 0 :: 0 :: 0 :: pkt.id % 65536 / 256 :: pkt.id % 256 ::
              pkt.seqno % 65536 / 256 :: pkt.seqno % 256 :: pkt.payload.getD []) % 65536 / 256 ::
          checksum (8 :: 0 :: 0 :: 0 :: pkt.id % 65536 / 256 :: pkt.id % 256 ::
              pkt.seqno % 65536 / 256 :: pkt.seqno % 256 :: pkt.payload.getD []) % 256 ::
          pkt.id % 65536 / 256 :: pkt.id % 256 ::
          pkt.seqno % 65536 / 256 :: pkt.seqno % 256 :: pkt.payload.getD [] := by
        unfold icmp_encode
        rw [hfam]
        simp only [GET_RULE, eq_self_iff_true, if_true]
        rw [encode_tail_eq pkt hlen hbytes, hty]
        simp [icmpv4, ICMP_ECHO, write16, List.append_eq, List.cons_append, List.nil_append]
      rw [henc] at hck ⊢
      rw [icmp_parse_seg_explicit]
      rw [if_neg (by simp [hck])]
      rw [if_pos (by norm_num [icmpv4, ICMP_ECHO])]
      refine ⟨rfl, rfl, ?_, ?_, ?_, ?_⟩
      · dsimp only
        omega
      · dsimp only
        omega
      · dsimp only
        omega
      · dsimp only
        by_cases hP : (pkt.payload.getD []).length = 0
        · simp [hP, List.eq_nil_of_length_eq_zero hP]
        · simp [hP]
    | ICMP_REPLY =>
      have henc : icmp_encode pkt =
          0 :: 0 ::
          checksum (0 :: 0 :: 0 :: 0 :: pkt.id % 65536 / 256 :: pkt.id % 256 ::
              pkt.seqno % 65536 / 256 :: pkt.seqno % 256 :: pkt.payload.getD []) % 65536 / 256 ::
          checksum (0 :: 0 :: 0 :: 0 :: pkt.id % 65536 / 256 :: pkt.id % 256 ::
              pkt.seqno % 65536 / 256 :: pkt.seqno % 256 :: pkt.payload.getD []) % 256 ::
          pkt.id % 65536 / 256 :: pkt.id % 256 ::
          pkt.seqno % 65536 / 256 :: pkt.seqno % 256 :: pkt.payload.getD [] := by
        unfold icmp_encode
        rw [hfam]
        simp only [GET_RULE, eq_self_iff_true, if_true]
        rw [encode_tail_eq pkt hlen hbytes, hty]
        simp [icmpv4, ICMP_ECHOREPLY, write16, List.append_eq, List.cons_append,
          List.nil_append]
      rw [henc] at hck ⊢
      rw [icmp_parse_seg_explicit]
      rw [if_neg (by simp [hck])]
      rw [if_neg (by norm_num [icmpv4, ICMP_ECHO])]
      rw [if_pos (by norm_num [icmpv4, ICMP_ECHOREPLY])]
      refine ⟨rfl, rfl, ?_, ?_, ?_, ?_⟩
      · dsimp only
        omega
      · dsimp only
        omega
      · dsimp only
        omega
      · dsimp only
        by_cases hP : (pkt.payload.getD []).length = 0
        · simp [hP, List.eq_nil_of_length_eq_zero hP]
        · simp [hP]
  · rw [if_neg hfam, icmp_parse_nov4 pkt _ hfam]
    cases hty : pkt.type with
    | ICMP_REQUEST =>
      have henc : icmp_encode pkt =
          128 :: 0 :: 0 :: 0 ::
          pkt.id % 65536 / 256 :: pkt.id % 256 ::
          pkt.seqno % 65536 / 256 :: pkt.seqno % 256 :: pkt.payload.getD [] := by
        unfold icmp_encode
        simp only [GET_RULE, if_neg hfam]
        rw [encode_tail_eq pkt hlen hbytes, hty]
        simp [icmpv6, ICMP6_ECHO_REQUEST, write16, List.append_eq, List.cons_append,
          List.nil_append]
      rw [henc]
      rw [icmp_parse_seg_explicit]
      rw [if_neg (by simp [icmpv6])]
      rw [if_pos (by norm_num [icmpv6, ICMP6_ECHO_REQUEST])]
      refine ⟨rfl, rfl, ?_, ?_, ?_, ?_⟩
      · dsimp only
        omega
      · dsimp only
        omega
      · dsimp only
        omega
      · dsimp only
        by_cases hP : (pkt.payload.getD []).length = 0
        · simp [hP, List.eq_nil_of_length_eq_zero hP]
        · simp [hP]
    | ICMP_REPLY =>
      have henc : icmp_encode pkt =
          129 :: 0 :: 0 :: 0 ::
          pkt.id % 65536 / 256 :: pkt.id % 256 ::
          pkt.seqno % 65536 / 256 :: pkt.seqno % 256 :: pkt.payload.getD [] := by
        unfold icmp_encode
        simp only [GET_RULE, if_neg hfam]
        rw [encode_tail_eq pkt hlen hbytes, hty]
        simp [icmpv6, ICMP6_ECHO_REPLY, write16, List.append_eq, List.cons_append,
          List.nil_append]
      rw [henc]
      rw [icmp_parse_seg_explicit]
      rw [if_neg (by simp [icmpv6])]
      rw [if_neg (by norm_num [icmpv6, ICMP6_ECHO_REQUEST])]
      rw [if_pos (by norm_num [icmpv6, ICMP6_ECHO_REPLY])]
      refine ⟨rfl, rfl, ?_, ?_, ?_, ?_⟩
      · dsimp only
        omega
      · dsimp only
        omega
      · dsimp only
        omega
      · dsimp only
        by_cases hP : (pkt.payload.getD []).length = 0
        · simp [hP, List.eq_nil_of_length_eq_zero hP]
        · simp [hP]

/-- Witness for C1 at the example IPv4 request behind the example IP
header. -/
theorem icmp_encode_parse_roundtrip_witness :
    (icmp_parse examplePacketV4 (exampleIpHeader ++ icmp_encode examplePacketV4)).1 = 0 ∧
    (icmp_parse examplePacketV4 (exampleIpHeader ++ icmp_encode examplePacketV4)).2.type
      = examplePacketV4.type ∧
    (icmp_parse examplePacketV4 (exampleIpHeader ++ icmp_encode examplePacketV4)).2.id
      = examplePacketV4.id ∧
    (icmp_parse examplePacketV4 (exampleIpHeader ++ icmp_encode examplePacketV4)).2.seqno
      = examplePacketV4.seqno ∧
    (icmp_parse examplePacketV4 (exampleIpHeader ++ icmp_encode examplePacketV4)).2.payload_len
      = examplePacketV4.payload_len ∧
    (icmp_parse examplePacketV4
        (exampleIpHeader ++ icmp_encode examplePacketV4)).2.payload.getD []
      = examplePacketV4.payload.getD [] :=
  icmp_encode_parse_roundtrip examplePacketV4 exampleIpHeader _
    (by decide) (by decide) (by decide) (by decide) (by decide) (by decide) (by decide)

/-- Claim C3: encoding the IPv4 echo request with id 0x1234, seqno 1 and
payload AA BB produces exactly the 10-byte buffer 08 00 CKSUM-HI CKSUM-LO
12 34 00 01 AA BB, where CKSUM is the Internet checksum of those 10 bytes
with the checksum field zeroed; parsing it behind a stripped IPv4 header
yields type Request, id 0x1234, seqno 1, payload AA BB. -/
theorem icmp_encode_example :
    icmp_encode examplePacketV4
      = 0x08 :: 0x00 ::
        write16 (checksum [0x08, 0x00, 0, 0, 0x12, 0x34, 0x00, 0x01, 0xAA, 0xBB]) ++
        [0x12, 0x34, 0x00, 0x01, 0xAA, 0xBB] ∧
    (icmp_encode examplePacketV4).length = 10 ∧
    (icmp_parse examplePacketV4 (exampleIpHeader ++ icmp_encode examplePacketV4)).1 = 0 ∧
    (icmp_parse examplePacketV4
      (exampleIpHeader ++ icmp_encode examplePacketV4)).2.type = icmp_type.ICMP_REQUEST ∧
    (icmp_parse examplePacketV4
      (exampleIpHeader ++ icmp_encode examplePacketV4)).2.id = 0x1234 ∧
    (icmp_parse examplePacketV4
      (exampleIpHeader ++ icmp_encode examplePacketV4)).2.seqno = 1 ∧
    (icmp_parse examplePacketV4
      (exampleIpHeader ++ icmp_encode examplePacketV4)).2.payload = some [0xAA, 0xBB] := by
  decide

/-- The result code of the post-strip parse, characterized as an if-chain
over the three post-strip rejection causes. -/
theorem icmp_parse_seg_code (rule : icmp_rule) (pkt : icmp_packet) (d : List Nat) :
    (icmp_parse_seg rule pkt d).1 =
      if d.length < ICMP_HDRLEN then -1
      else if rule.use_checksum ∧ checksum d ≠ 0 then -2
      else if rule.request_type ≠ d.getD 0 0 % 256 ∧ rule.reply_type ≠ d.getD 0 0 % 256 then -5
      else 0 := by
  unfold icmp_parse_seg
  split_ifs <;> simp_all

/-- Claim C4: parse has exactly five rejection causes, each detected in
order and returned immediately with a distinct code: empty buffer before
the IPv4 strip (-3), buffer shorter than the declared IP-header length
(-4), fewer than 8 remaining bytes (-1), nonzero checksum when the family
uses one (-2), unrecognized type byte (-5); every input yields either 0 or
exactly one of these five pairwise distinct codes, per the right-hand
if-chain and the distinctness of the code list. -/
theorem icmp_parse_error_taxonomy (pkt : icmp_packet) (data : List Nat) :
    (icmp_parse pkt data).1 =
      (if (GET_RULE pkt.family).strip_iphdr ∧ data.length = 0 then -3
       else if (GET_RULE pkt.family).strip_iphdr ∧
           data.length < data.getD 0 0 % 16 * 4 then -4
       else if (if (GET_RULE pkt.family).strip_iphdr then
             data.drop (data.getD 0 0 % 16 * 4) else data).length < ICMP_HDRLEN then -1
       else if (GET_RULE pkt.family).use_checksum ∧
           checksum (if (GET_RULE pkt.family).strip_iphdr then
             data.drop (data.getD 0 0 % 16 * 4) else data) ≠ 0 then -2
       else if (GET_RULE pkt.family).request_type ≠
             (if (GET_RULE pkt.family).strip_iphdr then
               data.drop (data.getD 0 0 % 16 * 4) else data).getD 0 0 % 256 ∧
           (GET_RULE pkt.family).reply_type ≠
             (if (GET_RULE pkt.family).strip_iphdr then
               data.drop (data.getD 0 0 % 16 * 4) else data).getD 0 0 % 256 then -5
       else 0) ∧
    ([-3, -4, -1, -2, -5] : List Int).Nodup := by
  refine ⟨?_, by decide⟩
  unfold icmp_parse
  by_cases hs : (GET_RULE pkt.family).strip_iphdr
  · rw [if_pos hs]
    by_cases h0 : data.length = 0
    · rw [if_pos h0, if_pos ⟨hs, h0⟩]
    · rw [if_neg h0]
      by_cases h4 : data.length < data.getD 0 0 % 16 * 4
      · rw [if_pos h4, if_neg (fun hc => h0 hc.2), if_pos ⟨hs, h4⟩]
      · rw [if_neg h4, icmp_parse_seg_code]
        conv_rhs => rw [if_neg (fun hc => h0 hc.2), if_neg (fun hc => h4 hc.2), if_pos hs]
  · rw [if_neg hs, icmp_parse_seg_code]
    conv_rhs => rw [if_neg (fun hc => hs hc.1), if_neg (fun hc => hs hc.1), if_neg hs]

/-- Claim C5: for every 8-byte-or-longer ICMP segment and an IPv4 peer,
parsing a buffer made of a 20-byte IP header (length nibble 5) followed by
the segment gives exactly the result of the post-strip parse on the bare
segment, and the stripped header length, the low 4 bits of the first
received byte times 4, is the full 20-byte header. -/
theorem icmp_parse_strip_equiv (pkt : icmp_packet) (hdr seg : List Nat)
    (hfam : pkt.family = AF_INET) (hhdr : hdr.length = 20)
    (hnib : hdr.getD 0 0 % 16 = 5) (hseg : 8 ≤ seg.length) :
    icmp_parse pkt (hdr ++ seg) = icmp_parse_seg (GET_RULE pkt.family) pkt seg ∧
    hdr.getD 0 0 % 16 * 4 = hdr.length := by
  refine ⟨?_, by rw [hnib, hhdr]⟩
  rw [icmp_parse_v4_strip pkt hdr seg hfam hhdr hnib, hfam]
  simp [GET_RULE]

/-- Witness for C5 at the example header and the encoded example packet. -/
theorem icmp_parse_strip_equiv_witness :
    (icmp_parse examplePacketV4 (exampleIpHeader ++ icmp_encode examplePacketV4)
      = icmp_parse_seg (GET_RULE examplePacketV4.family) examplePacketV4
          (icmp_encode examplePacketV4)) ∧
    exampleIpHeader.getD 0 0 % 16 * 4 = exampleIpHeader.length :=
  icmp_parse_strip_equiv examplePacketV4 exampleIpHeader (icmp_encode examplePacketV4)
    (by decide) (by decide) (by decide) (by decide)

/-- Claim C6: with an IPv6 peer, parsing any 7-byte buffer returns the
too-short code -1; parsing an 8-byte buffer whose first byte is a
recognized ICMPv6 type code succeeds with the payload pointer absent
(none, not an empty allocation) and payload length zero. -/
theorem icmp_parse_v6_length_boundary (pkt : icmp_packet) (data : List Nat)
    (hfam : pkt.family = AF_INET6) :
    (data.length = 7 → (icmp_parse pkt data).1 = -1) ∧
    (data.length = 8 →
      (data.getD 0 0 % 256 = ICMP6_ECHO_REQUEST ∨ data.getD 0 0 % 256 = ICMP6_ECHO_REPLY) →
      (icmp_parse pkt data).1 = 0 ∧
      (icmp_parse pkt data).2.payload = none ∧
      (icmp_parse pkt data).2.payload_len = 0) := by
  have hne : pkt.family ≠ AF_INET := by
    rw [hfam]
    decide
  rw [icmp_parse_nov4 pkt data hne]
  constructor
  · intro h7
    unfold icmp_parse_seg
    rw [if_pos (by simp [h7, ICMP_HDRLEN])]
  · intro h8 htype
    unfold icmp_parse_seg
    rw [if_neg (by simp [h8, ICMP_HDRLEN])]
    rw [if_neg (by simp [icmpv6])]
    rcases htype with ht | ht
    · rw [if_pos (by rw [ht]; rfl)]
      refine ⟨rfl, ?_, ?_⟩
      · unfold mkParsed
        simp [h8, ICMP_HDRLEN]
      · unfold mkParsed
        simp [h8, ICMP_HDRLEN]
    · rw [if_neg (by rw [ht]; decide)]
      rw [if_pos (by rw [ht]; rfl)]
      refine ⟨rfl, ?_, ?_⟩
      · unfold mkParsed
        simp [h8, ICMP_HDRLEN]
      · unfold mkParsed
        simp [h8, ICMP_HDRLEN]

/-- Witness for C6 at a 7-byte buffer and a minimal valid 8-byte echo
request. -/
theorem icmp_parse_v6_length_boundary_witness :
    (icmp_parse examplePacketV6 [1, 2, 3, 4, 5, 6, 7]).1 = -1 ∧
    ((icmp_parse examplePacketV6 [128, 0, 0, 0, 9, 9, 9, 9]).1 = 0 ∧
      (icmp_parse examplePacketV6 [128, 0, 0, 0, 9, 9, 9, 9]).2.payload = none ∧
      (icmp_parse examplePacketV6 [128, 0, 0, 0, 9, 9, 9, 9]).2.payload_len = 0) :=
  ⟨(icmp_parse_v6_length_boundary examplePacketV6 [1, 2, 3, 4, 5, 6, 7]
      (by decide)).1 (by decide),
    (icmp_parse_v6_length_boundary examplePacketV6 [128, 0, 0, 0, 9, 9, 9, 9]
      (by decide)).2 (by decide) (Or.inl (by decide))⟩

/-- Claim C7: for each family independently, parsing an otherwise-valid
buffer (long enough, checksum passing where used) whose first ICMP byte is
neither the family request nor reply code fails with the
unrecognized-type code -5; a first byte equal to the request code sets the
packet type to Request, and one equal to the reply code sets it to
Reply. -/
theorem icmp_parse_type_classification (pkt : icmp_packet) (hdr seg : List Nat)
    (hhdr : hdr.length = 20) (hnib : hdr.getD 0 0 % 16 = 5)
    (hseg : 8 ≤ seg.length) :
    (pkt.family = AF_INET → checksum seg = 0 →
      ((seg.getD 0 0 % 256 ≠ ICMP_ECHO ∧ seg.getD 0 0 % 256 ≠ ICMP_ECHOREPLY →
          (icmp_parse pkt (hdr ++ seg)).1 = -5) ∧
        (seg.getD 0 0 % 256 = ICMP_ECHO →
          (icmp_parse pkt (hdr ++ seg)).1 = 0 ∧
          (icmp_parse pkt (hdr ++ seg)).2.type = icmp_type.ICMP_REQUEST) ∧
        (seg.getD 0 0 % 256 = ICMP_ECHOREPLY →
          (icmp_parse pkt (hdr ++ seg)).1 = 0 ∧
          (icmp_parse pkt (hdr ++ seg)).2.type = icmp_type.ICMP_REPLY))) ∧
    (pkt.family ≠ AF_INET →
      ((seg.getD 0 0 % 256 ≠ ICMP6_ECHO_REQUEST ∧ seg.getD 0 0 % 256 ≠ ICMP6_ECHO_REPLY →
          (icmp_parse pkt seg).1 = -5) ∧
        (seg.getD 0 0 % 256 = ICMP6_ECHO_REQUEST →
          (icmp_parse pkt seg).1 = 0 ∧
          (icmp_parse pkt seg).2.type = icmp_type.ICMP_REQUEST) ∧
        (seg.getD 0 0 % 256 = ICMP6_ECHO_REPLY →
          (icmp_parse pkt seg).1 = 0 ∧
          (icmp_parse pkt seg).2.type = icmp_type.ICMP_REPLY))) := by
  constructor
  · intro hfam hchk
    rw [icmp_parse_v4_strip pkt hdr seg hfam hhdr hnib]
    unfold icmp_parse_seg
    rw [if_neg (by unfold ICMP_HDRLEN; omega)]
    rw [if_neg (fun hc => hc.2 hchk)]
    refine ⟨?_, ?_, ?_⟩
    · intro hno
      rw [if_neg (fun he => hno.1 he.symm), if_neg (fun he => hno.2 he.symm)]
    · intro ht
      rw [if_pos (by rw [ht]; rfl)]
      exact ⟨rfl, rfl⟩
    · intro ht
      rw [if_neg (by rw [ht]; decide), if_pos (by rw [ht]; rfl)]
      exact ⟨rfl, rfl⟩
  · intro hfam
    rw [icmp_parse_nov4 pkt seg hfam]
    unfold icmp_parse_seg
    rw [if_neg (by unfold ICMP_HDRLEN; omega)]
    rw [if_neg (by simp [icmpv6])]
    refine ⟨?_, ?_, ?_⟩
    · intro hno
      rw [if_neg (fun he => hno.1 he.symm), if_neg (fun he => hno.2 he.symm)]
    · intro ht
      rw [if_pos (by rw [ht]; rfl)]
      exact ⟨rfl, rfl⟩
    · intro ht
      rw [if_neg (by rw [ht]; decide), if_pos (by rw [ht]; rfl)]
      exact ⟨rfl, rfl⟩

/-- Witness for C7: a parsed IPv4 request is classified Request, and an
8-byte IPv6 buffer with unknown type byte 55 is rejected with -5. -/
theorem icmp_parse_type_classification_witness :
    ((icmp_parse examplePacketV4 (exampleIpHeader ++ icmp_encode examplePacketV4)).1 = 0 ∧
      (icmp_parse examplePacketV4
        (exampleIpHeader ++ icmp_encode examplePacketV4)).2.type
        = icmp_type.ICMP_REQUEST) ∧
    (icmp_parse examplePacketV6 [55, 0, 0, 0, 9, 9, 9, 9]).1 = -5 :=
  ⟨((icmp_parse_type_classification examplePacketV4 exampleIpHeader
        (icmp_encode examplePacketV4) (by decide) (by decide) (by decide)).1
      (by decide) (by decide)).2.1 (by decide),
    ((icmp_parse_type_classification examplePacketV6 exampleIpHeader
        [55, 0, 0, 0, 9, 9, 9, 9] (by decide) (by decide) (by decide)).2
      (by decide)).1 (by decide)⟩

/-- Claim C8: when the encode allocation succeeds, icmp_send returns
exactly the value reported by the external sendto primitive applied to the
encoded buffer and its length, with no re-validation; when the allocation
fails, no send is attempted (the result is 0 for every send primitive) and
the caller receives the no-output value 0. -/
theorem icmp_send_result (sendto : List Nat → Nat → Int) (pkt : icmp_packet) :
    icmp_send sendto true pkt
      = sendto (icmp_encode pkt) (ICMP_HDRLEN + pkt.payload_len) ∧
    icmp_send sendto false pkt = 0 :=
  ⟨rfl, rfl⟩

/-- Claim C9 (implicit): family dispatch is total: for every packet whose
peer family is anything other than AF_INET, GET_RULE yields the ICMPv6
rule and both encode and parse behave exactly as for an AF_INET6 packet
(same buffer, same code, same resulting fields up to the untouched family
field); no family value is rejected. -/
theorem family_dispatch_total (pkt : icmp_packet) (data : List Nat)
    (hfam : pkt.family ≠ AF_INET) :
    GET_RULE pkt.family = icmpv6 ∧
    icmp_encode pkt = icmp_encode { pkt with family := AF_INET6 } ∧
    (icmp_parse pkt data).1 = (icmp_parse { pkt with family := AF_INET6 } data).1 ∧
    (icmp_parse pkt data).2
      = { (icmp_parse { pkt with family := AF_INET6 } data).2 with
          family := pkt.family } := by
  have h6 : ({ pkt with family := AF_INET6 } : icmp_packet).family ≠ AF_INET := by
    simp [AF_INET6, AF_INET]
  refine ⟨by simp [GET_RULE, hfam], ?_, ?_, ?_⟩
  · have hf2 : ¬ (pkt.family = 2) := by simpa [AF_INET] using hfam
    unfold icmp_encode encode_tail encode_payload
    simp [GET_RULE, hf2, AF_INET6, AF_INET]
  · rw [icmp_parse_nov4 pkt data hfam, icmp_parse_nov4 _ data h6,
      icmp_parse_seg_code, icmp_parse_seg_code]
  · rw [icmp_parse_nov4 pkt data hfam, icmp_parse_nov4 _ data h6]
    unfold icmp_parse_seg mkParsed
    split_ifs <;> rfl

/-- Witness for C9 at the example IPv6 packet and a 1-byte buffer. -/
theorem family_dispatch_total_witness :
    GET_RULE examplePacketV6.family = icmpv6 ∧
    icmp_encode examplePacketV6
      = icmp_encode { examplePacketV6 with family := AF_INET6 } ∧
    (icmp_parse examplePacketV6 [55]).1
      = (icmp_parse { examplePacketV6 with family := AF_INET6 } [55]).1 ∧
    (icmp_parse examplePacketV6 [55]).2
      = { (icmp_parse { examplePacketV6 with family := AF_INET6 } [55]).2 with
          family := examplePacketV6.family } :=
  family_dispatch_total examplePacketV6 [55] (by decide)

/-- The post-strip parse writes no packet field on failure. -/
theorem icmp_parse_seg_atomic (rule : icmp_rule) (pkt : icmp_packet)
    (d : List Nat) (h : (icmp_parse_seg rule pkt d).1 ≠ 0) :
    (icmp_parse_seg rule pkt d).2 = pkt := by
  unfold icmp_parse_seg at h ⊢
  split_ifs at h ⊢ <;> first | rfl | exact absurd rfl h

/-- Claim C10 (implicit): on every failing parse (any nonzero code) no
logical packet field is written: the returned packet state is exactly the
caller-supplied one. -/
theorem icmp_parse_failure_atomic (pkt : icmp_packet) (data : List Nat)
    (h : (icmp_parse pkt data).1 ≠ 0) :
    (icmp_parse pkt data).2 = pkt := by
  by_cases hfam : pkt.family = AF_INET
  · unfold icmp_parse at h ⊢
    rw [hfam] at h ⊢
    simp only [GET_RULE, eq_self_iff_true, if_true] at h ⊢
    rw [show icmpv4.strip_iphdr = true from rfl, if_pos rfl] at h ⊢
    by_cases h0 : data.length = 0
    · rw [if_pos h0]
    · rw [if_neg h0] at h ⊢
      by_cases h4 : data.length < data.getD 0 0 % 16 * 4
      · rw [if_pos h4]
      · rw [if_neg h4] at h ⊢
        exact icmp_parse_seg_atomic _ _ _ h
  · rw [icmp_parse_nov4 pkt data hfam] at h ⊢
    exact icmp_parse_seg_atomic _ _ _ h

/-- Witness for C10 at an empty buffer with an IPv4 peer. -/
theorem icmp_parse_failure_atomic_witness :
    (icmp_parse examplePacketV4 []).1 ≠ 0 ∧
    (icmp_parse examplePacketV4 []).2 = examplePacketV4 :=
  ⟨by decide, icmp_parse_failure_atomic examplePacketV4 [] (by decide)⟩
